import Mathlib

/-!
Verification of the go-ovh client (`ovh/client.go`) against its
natural-language specification.  The Go code is shallowly embedded:
pure computations become Lean functions, the HTTP transport becomes an
explicit function argument, and machine integers become `Nat`/`Int`
with explicit reductions modulo powers of two where overflow matters.
-/

namespace GoOVH

/-- A byte string: each entry is one byte value. -/
abbrev Bytes := List Nat

/-! ## SHA-1 (crypto/sha1), as used by `Client.Do` to sign requests -/

/-- Two to the power 32: the modulus of 32-bit words in SHA-1. -/
def w32 : Nat := 4294967296

/-- Left rotation of a 32-bit word by `k` bits. -/
def rotl (k x : Nat) : Nat := ((x <<< k) % w32) ||| ((x % w32) >>> (32 - k))

/-- The SHA-1 round function `f_t(b, c, d)`. -/
def sha1F (t b c d : Nat) : Nat :=
  if t < 20 then (b &&& c) ||| (((w32 - 1) ^^^ b) &&& d)
  else if t < 40 then (b ^^^ c) ^^^ d
  else if t < 60 then ((b &&& c) ||| (b &&& d)) ||| (c &&& d)
  else (b ^^^ c) ^^^ d

/-- The SHA-1 round constants `K_t`. -/
def sha1K (t : Nat) : Nat :=
  if t < 20 then 1518500249
  else if t < 40 then 1859775393
  else if t < 60 then 2400959708
  else 3395469782

/-- A big-endian 32-bit word assembled from four bytes. -/
def beWord (b0 b1 b2 b3 : Nat) : Nat :=
  (b0 % 256) * 16777216 + (b1 % 256) * 65536 + (b2 % 256) * 256 + (b3 % 256)

/-- The sixteen 32-bit words of one 64-byte block. -/
def blockWords (block : Bytes) : List Nat :=
  (List.range 16).map (fun i => beWord (block.getD (4 * i) 0) (block.getD (4 * i + 1) 0)
    (block.getD (4 * i + 2) 0) (block.getD (4 * i + 3) 0))

/-- Extension of the sixteen block words to the eighty-word message schedule. -/
def sha1Schedule (w16 : List Nat) : List Nat :=
  (List.range 64).foldl (fun w _ =>
    let n := w.length
    w ++ [rotl 1 ((((w.getD (n - 3) 0) ^^^ (w.getD (n - 8) 0)) ^^^ (w.getD (n - 14) 0)) ^^^
      (w.getD (n - 16) 0))]) w16

/-- One SHA-1 compression round on the working state `(a, b, c, d, e)`. -/
def sha1Round (ws : List Nat) (st : Nat × Nat × Nat × Nat × Nat) (t : Nat) :
    Nat × Nat × Nat × Nat × Nat :=
  match st with
  | (a, b, c, d, e) =>
    ((rotl 5 a + sha1F t b c d + e + sha1K t + ws.getD t 0) % w32, a, rotl 30 b, c, d)

/-- Processing of one 64-byte block: eighty rounds, then addition into the chaining state. -/
def sha1Block (st : Nat × Nat × Nat × Nat × Nat) (block : Bytes) :
    Nat × Nat × Nat × Nat × Nat :=
  match (List.range 80).foldl (sha1Round (sha1Schedule (blockWords block))) st, st with
  | (a, b, c, d, e), (h0, h1, h2, h3, h4) =>
    ((h0 + a) % w32, (h1 + b) % w32, (h2 + c) % w32, (h3 + d) % w32, (h4 + e) % w32)

/-- A 64-bit big-endian byte rendering of a number. -/
def be64 (n : Nat) : Bytes :=
  [(n >>> 56) % 256, (n >>> 48) % 256, (n >>> 40) % 256, (n >>> 32) % 256,
   (n >>> 24) % 256, (n >>> 16) % 256, (n >>> 8) % 256, n % 256]

/-- SHA-1 padding: a 0x80 byte, zeros to 56 mod 64, then the bit length, big-endian. -/
def sha1Pad (msg : Bytes) : Bytes :=
  msg ++ [128] ++ List.replicate ((119 - msg.length % 64) % 64) 0 ++ be64 (8 * msg.length)

/-- Split of a byte string into 64-byte chunks. -/
def chunks64 (l : Bytes) : List Bytes :=
  if h : l = [] then [] else l.take 64 :: chunks64 (l.drop 64)
termination_by l.length
decreasing_by
  simp only [List.length_drop]
  exact Nat.sub_lt (List.length_pos.mpr h) (by decide)

/-- A 32-bit word rendered as four big-endian bytes. -/
def wordBytes (w : Nat) : Bytes := [(w >>> 24) % 256, (w >>> 16) % 256, (w >>> 8) % 256, w % 256]

/-- The SHA-1 digest of a byte string, as twenty bytes. -/
def sha1 (msg : Bytes) : Bytes :=
  match (chunks64 (sha1Pad msg)).foldl sha1Block
      (1732584193, 4023233417, 2562383102, 271733878, 3285377520) with
  | (h0, h1, h2, h3, h4) =>
    wordBytes h0 ++ wordBytes h1 ++ wordBytes h2 ++ wordBytes h3 ++ wordBytes h4

/-- The byte of the lowercase hexadecimal digit for a value below sixteen. -/
def hexDigit (n : Nat) : Nat := if n < 10 then 48 + n else 87 + n

/-- Lowercase hexadecimal rendering of a byte string (`%x` on bytes in Go). -/
def lowerHexBytes (bs : Bytes) : Bytes :=
  (bs.map (fun b => [hexDigit ((b >>> 4) % 16), hexDigit (b % 16)])).flatten

/-! ## The request signature (`Client.Do`, client.go lines 349-358) -/

/-- The byte value of the plus sign, the separator of the signing string. -/
def plusByte : Nat := 43

/-- The signing string of client.go lines 350-357: the six fields joined by
the plus separator, in the fixed order secret, consumer key, method, target
URL, body, timestamp. -/
def signingString (secret consumer method url body ts : Bytes) : Bytes :=
  secret ++ [plusByte] ++ consumer ++ [plusByte] ++ method ++ [plusByte] ++ url ++
    [plusByte] ++ body ++ [plusByte] ++ ts

/-- The bytes of the literal version tag placed before the hexadecimal digest. -/
def sigTag : Bytes := [36, 49, 36]

/-- The `X-Ovh-Signature` header value of client.go line 358: the version tag
followed by the lowercase hexadecimal SHA-1 digest of the signing string. -/
def xOvhSignature (secret consumer method url body ts : Bytes) : Bytes :=
  sigTag ++ lowerHexBytes (sha1 (signingString secret consumer method url body ts))

/-- Stated from the spec words: the tag, then the lowercase hexadecimal SHA-1
of the byte string formed by joining the six fields with the separator. -/
def specSignature (secret consumer method url body ts : Bytes) : Bytes :=
  sigTag ++ lowerHexBytes (sha1 (List.intercalate [plusByte]
    [secret, consumer, method, url, body, ts]))

theorem intercalate_six (s a b c d e f : Bytes) :
    List.intercalate s [a, b, c, d, e, f] = a ++ s ++ b ++ s ++ c ++ s ++ d ++ s ++ e ++ s ++ f := by
  simp [List.intercalate, List.intersperse]

theorem signingString_intercalate (secret consumer method url body ts : Bytes) :
    signingString secret consumer method url body ts =
      List.intercalate [plusByte] [secret, consumer, method, url, body, ts] := by
  rw [intercalate_six]
  simp [signingString]

theorem hexDigit_inj : ∀ m < 16, ∀ n < 16, hexDigit m = hexDigit n → m = n := by decide

theorem byte_eq_of_hex_parts {x y : Nat} (hx : x < 256) (hy : y < 256)
    (h1 : (x >>> 4) % 16 = (y >>> 4) % 16) (h2 : x % 16 = y % 16) : x = y := by
  simp only [Nat.shiftRight_eq_div_pow] at h1
  omega

theorem lowerHexBytes_inj : ∀ xs ys : Bytes, (∀ b ∈ xs, b < 256) → (∀ b ∈ ys, b < 256) →
    lowerHexBytes xs = lowerHexBytes ys → xs = ys
  | [], [], _, _, _ => rfl
  | [], _ :: _, _, _, h => by simp [lowerHexBytes] at h
  | _ :: _, [], _, _, h => by simp [lowerHexBytes] at h
  | x :: xs, y :: ys, hx, hy, h => by
    simp only [lowerHexBytes, List.map_cons, List.flatten_cons, List.cons_append,
      List.nil_append, List.cons.injEq] at h
    obtain ⟨d1, d2, rest⟩ := h
    have hx0 : x < 256 := hx x (List.mem_cons_self x xs)
    have hy0 : y < 256 := hy y (List.mem_cons_self y ys)
    have exy : x = y := by
      refine byte_eq_of_hex_parts hx0 hy0 ?_ ?_
      · exact hexDigit_inj _ (Nat.mod_lt _ (by decide)) _ (Nat.mod_lt _ (by decide)) d1
      · exact hexDigit_inj _ (Nat.mod_lt _ (by decide)) _ (Nat.mod_lt _ (by decide)) d2
    have etail : xs = ys := by
      refine lowerHexBytes_inj xs ys (fun b hb => hx b (List.mem_cons_of_mem _ hb))
        (fun b hb => hy b (List.mem_cons_of_mem _ hb)) ?_
      simpa [lowerHexBytes] using rest
    rw [exy, etail]

theorem sha1_bytes_lt (msg : Bytes) : ∀ b ∈ sha1 msg, b < 256 := by
  unfold sha1
  rcases (chunks64 (sha1Pad msg)).foldl sha1Block
    (1732584193, 4023233417, 2562383102, 271733878, 3285377520) with ⟨h0, h1, h2, h3, h4⟩
  intro b hb
  simp only [wordBytes, List.mem_append, List.mem_cons, List.not_mem_nil, or_false] at hb
  omega

/-- Signature values agree exactly when the SHA-1 digests of the two signing
strings agree: the tag prefix and the hexadecimal rendering are injective. -/
theorem xOvhSignature_eq_iff (s c m u b t s2 c2 m2 u2 b2 t2 : Bytes) :
    xOvhSignature s c m u b t = xOvhSignature s2 c2 m2 u2 b2 t2 ↔
      sha1 (signingString s c m u b t) = sha1 (signingString s2 c2 m2 u2 b2 t2) := by
  constructor
  · intro h
    exact lowerHexBytes_inj _ _ (sha1_bytes_lt _) (sha1_bytes_lt _)
      (List.append_cancel_left h)
  · intro h
    unfold xOvhSignature
    rw [h]

/-- Exactly one of the six signature inputs differs between the two tuples. -/
def oneChanged (s c m u b t s2 c2 m2 u2 b2 t2 : Bytes) : Prop :=
  (s ≠ s2 ∧ c = c2 ∧ m = m2 ∧ u = u2 ∧ b = b2 ∧ t = t2) ∨
  (s = s2 ∧ c ≠ c2 ∧ m = m2 ∧ u = u2 ∧ b = b2 ∧ t = t2) ∨
  (s = s2 ∧ c = c2 ∧ m ≠ m2 ∧ u = u2 ∧ b = b2 ∧ t = t2) ∨
  (s = s2 ∧ c = c2 ∧ m = m2 ∧ u ≠ u2 ∧ b = b2 ∧ t = t2) ∨
  (s = s2 ∧ c = c2 ∧ m = m2 ∧ u = u2 ∧ b ≠ b2 ∧ t = t2) ∨
  (s = s2 ∧ c = c2 ∧ m = m2 ∧ u = u2 ∧ b = b2 ∧ t ≠ t2)

/-- Claim C1: for every authenticated call with fixed secret, consumer key,
method, target URL, body and timestamp, the `X-Ovh-Signature` value equals the
literal tag followed by the lowercase hexadecimal SHA-1 digest of the six
fields joined in that order by the plus separator, and the value is
byte-identical across repeated invocations on identical inputs. -/
theorem signature_spec_and_deterministic (s c m u b t : Bytes) :
    xOvhSignature s c m u b t =
      sigTag ++ lowerHexBytes (sha1 (List.intercalate [plusByte] [s, c, m, u, b, t])) ∧
    xOvhSignature s c m u b t = xOvhSignature s c m u b t :=
  ⟨by rw [xOvhSignature, signingString_intercalate], rfl⟩

/-- Claim C9: perturbing exactly one of the six signature inputs while holding
the others fixed always changes the signing string — in particular no boundary
bytes can move across the plus separators under a single-component change —
and the two signature values coincide exactly when the SHA-1 digests of the
two (distinct) signing strings collide. -/
theorem signature_sensitivity (s c m u b t s2 c2 m2 u2 b2 t2 : Bytes)
    (h : oneChanged s c m u b t s2 c2 m2 u2 b2 t2) :
    signingString s c m u b t ≠ signingString s2 c2 m2 u2 b2 t2 ∧
    (xOvhSignature s c m u b t = xOvhSignature s2 c2 m2 u2 b2 t2 ↔
      sha1 (signingString s c m u b t) = sha1 (signingString s2 c2 m2 u2 b2 t2)) := by
  refine ⟨?_, xOvhSignature_eq_iff s c m u b t s2 c2 m2 u2 b2 t2⟩
  rcases h with ⟨hne, rfl, rfl, rfl, rfl, rfl⟩ | ⟨rfl, hne, rfl, rfl, rfl, rfl⟩ |
    ⟨rfl, rfl, hne, rfl, rfl, rfl⟩ | ⟨rfl, rfl, rfl, hne, rfl, rfl⟩ |
    ⟨rfl, rfl, rfl, rfl, hne, rfl⟩ | ⟨rfl, rfl, rfl, rfl, rfl, hne⟩ <;>
      intro heq <;> simp only [signingString, List.append_assoc] at heq
  · exact hne (List.append_cancel_right heq)
  · have h1 := List.append_cancel_left heq
    have h2 := List.append_cancel_left h1
    exact hne (List.append_cancel_right h2)
  · have h1 := List.append_cancel_left heq
    have h2 := List.append_cancel_left h1
    have h3 := List.append_cancel_left h2
    have h4 := List.append_cancel_left h3
    exact hne (List.append_cancel_right h4)
  · have h1 := List.append_cancel_left heq
    have h2 := List.append_cancel_left h1
    have h3 := List.append_cancel_left h2
    have h4 := List.append_cancel_left h3
    have h5 := List.append_cancel_left h4
    have h6 := List.append_cancel_left h5
    exact hne (List.append_cancel_right h6)
  · have h1 := List.append_cancel_left heq
    have h2 := List.append_cancel_left h1
    have h3 := List.append_cancel_left h2
    have h4 := List.append_cancel_left h3
    have h5 := List.append_cancel_left h4
    have h6 := List.append_cancel_left h5
    have h7 := List.append_cancel_left h6
    have h8 := List.append_cancel_left h7
    exact hne (List.append_cancel_right h8)
  · have h1 := List.append_cancel_left heq
    have h2 := List.append_cancel_left h1
    have h3 := List.append_cancel_left h2
    have h4 := List.append_cancel_left h3
    have h5 := List.append_cancel_left h4
    have h6 := List.append_cancel_left h5
    have h7 := List.append_cancel_left h6
    have h8 := List.append_cancel_left h7
    have h9 := List.append_cancel_left h8
    have h10 := List.append_cancel_left h9
    exact hne h10

/-- Witness for claim C9 at a concrete boundary-byte perturbation: the body
shrinks from two bytes ending in the separator byte to one byte, everything
else fixed. -/
theorem signature_sensitivity_witness :
    oneChanged [1] [2] [3] [4] [97, 43] [6] [1] [2] [3] [4] [97] [6] ∧
    (signingString [1] [2] [3] [4] [97, 43] [6] ≠ signingString [1] [2] [3] [4] [97] [6] ∧
    (xOvhSignature [1] [2] [3] [4] [97, 43] [6] = xOvhSignature [1] [2] [3] [4] [97] [6] ↔
      sha1 (signingString [1] [2] [3] [4] [97, 43] [6]) =
        sha1 (signingString [1] [2] [3] [4] [97] [6]))) :=
  ⟨by unfold oneChanged; decide,
   signature_sensitivity [1] [2] [3] [4] [97, 43] [6] [1] [2] [3] [4] [97] [6]
     (by unfold oneChanged; decide)⟩

/-! ## JSON decoding

The source delegates JSON decoding to the external `encoding/json` package,
which is outside this repository; the spec scopes it out as a generic
serializer.  The definitions below model its observable contract on the two
shapes the client decodes: the error payload object and a bare integer. -/

/-- JSON values. -/
inductive JVal where
  | jnull
  | jbool (b : Bool)
  | jnum (lexeme : String)
  | jstr (s : String)
  | jarr (elems : List JVal)
  | jobj (fields : List (String × JVal))

/-- Whitespace accepted between JSON tokens. -/
def isJWS (c : Char) : Bool := c == ' ' || c == '\t' || c == '\n' || c == '\r'

/-- Leading JSON whitespace removed. -/
def skipWS : List Char → List Char
  | [] => []
  | c :: cs => if isJWS c then skipWS cs else c :: cs

/-- An ASCII decimal digit. -/
def isDigit (c : Char) : Bool := 48 ≤ c.toNat && c.toNat ≤ 57

/-- The longest digit run at the front of the input, and the rest. -/
def takeDigits : List Char → List Char × List Char
  | [] => ([], [])
  | c :: cs =>
    if isDigit c then
      match takeDigits cs with
      | (d, r) => (c :: d, r)
    else ([], c :: cs)

/-- The value of a hexadecimal digit character. -/
def hexVal (c : Char) : Option Nat :=
  let n := c.toNat
  if 48 ≤ n ∧ n ≤ 57 then some (n - 48)
  else if 97 ≤ n ∧ n ≤ 102 then some (n - 87)
  else if 65 ≤ n ∧ n ≤ 70 then some (n - 55)
  else none

/-- The character named by a one-letter JSON escape. -/
def escChar (e : Char) : Option Char :=
  if e == '"' then some '"'
  else if e == '\\' then some '\\'
  else if e == '/' then some '/'
  else if e == 'b' then some (Char.ofNat 8)
  else if e == 'f' then some (Char.ofNat 12)
  else if e == 'n' then some '\n'
  else if e == 'r' then some '\r'
  else if e == 't' then some '\t'
  else none

/-- The body of a JSON string after its opening quote: the decoded characters
and the input after the closing quote. -/
def parseStringBody : Nat → List Char → Option (List Char × List Char)
  | 0, _ => none
  | _ + 1, [] => none
  | fuel + 1, c :: cs =>
    if c == '"' then some ([], cs)
    else if c == '\\' then
      match cs with
      | [] => none
      | e :: cs2 =>
        if e == 'u' then
          match cs2 with
          | a :: b :: c3 :: d :: rest =>
            match hexVal a, hexVal b, hexVal c3, hexVal d with
            | some ha, some hb, some hc, some hd =>
              match parseStringBody fuel rest with
              | some (out, rem) =>
                some (Char.ofNat (((ha * 16 + hb) * 16 + hc) * 16 + hd) :: out, rem)
              | none => none
            | _, _, _, _ => none
          | _ => none
        else
          match escChar e with
          | some ec =>
            match parseStringBody fuel cs2 with
            | some (out, rem) => some (ec :: out, rem)
            | none => none
          | none => none
    else
      match parseStringBody fuel cs with
      | some (out, rem) => some (c :: out, rem)
      | none => none

/-- The lexeme of a JSON number at the front of the input, and the rest.
Leading zeros are rejected, as the JSON grammar demands. -/
def parseNumberLexeme (cs : List Char) : Option (List Char × List Char) :=
  let (neg, cs1) :=
    match cs with
    | c :: rest => if c == '-' then ([c], rest) else (([] : List Char), cs)
    | [] => ([], [])
  match takeDigits cs1 with
  | ([], _) => none
  | (ds, r1) =>
    if ds.length > 1 ∧ ds.headD '0' == '0' then none
    else
      let (frac, r2) :=
        match r1 with
        | c :: rest =>
          if c == '.' then
            match takeDigits rest with
            | ([], _) => (([] : List Char), r1)
            | (fs, rr) => (c :: fs, rr)
          else ([], r1)
        | [] => ([], r1)
      let (ex, r3) :=
        match r2 with
        | c :: rest =>
          if c == 'e' || c == 'E' then
            match rest with
            | s :: rest2 =>
              if s == '+' || s == '-' then
                match takeDigits rest2 with
                | ([], _) => (([] : List Char), r2)
                | (es, rr) => (c :: s :: es, rr)
              else
                match takeDigits rest with
                | ([], _) => (([] : List Char), r2)
                | (es, rr) => (c :: es, rr)
            | [] => ([], r2)
          else ([], r2)
        | [] => ([], r2)
      some (neg ++ ds ++ frac ++ ex, r3)

/-- The three mutually recursive JSON parsers — value, array elements,
object fields — built together by recursion on fuel, so that every
recursive call steps down one fuel level and the whole family reduces by
plain structural recursion. -/
def parsers : Nat →
    (List Char → Option (JVal × List Char)) ×
    (List Char → Option (List JVal × List Char)) ×
    (List Char → Option (List (String × JVal) × List Char))
  | 0 => (fun _ => none, fun _ => none, fun _ => none)
  | fuel + 1 =>
    let pv := (parsers fuel).1
    let pe := (parsers fuel).2.1
    let pf := (parsers fuel).2.2
    (fun cs =>
    match skipWS cs with
    | [] => none
    | c :: rest =>
      if c == 'n' then
        match rest with
        | u :: l1 :: l2 :: r =>
          if u == 'u' && l1 == 'l' && l2 == 'l' then some (.jnull, r) else none
        | _ => none
      else if c == 't' then
        match rest with
        | r1 :: u :: e :: r =>
          if r1 == 'r' && u == 'u' && e == 'e' then some (.jbool true, r) else none
        | _ => none
      else if c == 'f' then
        match rest with
        | a :: l :: s :: e :: r =>
          if a == 'a' && l == 'l' && s == 's' && e == 'e' then some (.jbool false, r)
          else none
        | _ => none
      else if c == '"' then
        match parseStringBody (fuel + 1) rest with
        | some (out, rem) => some (.jstr (String.mk out), rem)
        | none => none
      else if c == '[' then
        match pe rest with
        | some (vs, rem) => some (.jarr vs, rem)
        | none => none
      else if c == '\x7b' then
        match pf rest with
        | some (fs, rem) => some (.jobj fs, rem)
        | none => none
      else if c == '-' || isDigit c then
        match parseNumberLexeme (c :: rest) with
        | some (lex, rem) => some (.jnum (String.mk lex), rem)
        | none => none
      else none,
     fun cs =>
      match skipWS cs with
      | [] => none
      | c :: rest =>
        if c == ']' then some ([], rest)
        else
          match pv (c :: rest) with
          | none => none
          | some (v, r1) =>
            match skipWS r1 with
            | sep :: r2 =>
              if sep == ',' then
                match pe r2 with
                | some (w :: ws, r3) => some (v :: w :: ws, r3)
                | _ => none
              else if sep == ']' then some ([v], r2)
              else none
            | [] => none,
     fun cs =>
      match skipWS cs with
      | [] => none
      | c :: rest =>
        if c == '\x7d' then some ([], rest)
        else if c == '"' then
          match parseStringBody (fuel + 1) rest with
          | none => none
          | some (key, r1) =>
            match skipWS r1 with
            | colon :: r2 =>
              if colon == ':' then
                match pv r2 with
                | none => none
                | some (v, r3) =>
                  match skipWS r3 with
                  | sep :: r4 =>
                    if sep == ',' then
                      match pf r4 with
                      | some (f :: fs, r5) => some ((String.mk key, v) :: f :: fs, r5)
                      | _ => none
                    else if sep == '\x7d' then some ([(String.mk key, v)], r4)
                    else none
                  | [] => none
              else none
            | [] => none
        else none)

/-- A JSON value at the front of the input (fuel-indexed recursive descent). -/
def parseVal (fuel : Nat) : List Char → Option (JVal × List Char) := (parsers fuel).1

/-- The elements of a JSON array after its opening bracket, the closing
bracket consumed. -/
def parseElems (fuel : Nat) : List Char → Option (List JVal × List Char) := (parsers fuel).2.1

/-- The fields of a JSON object after its opening brace, the closing brace
consumed. -/
def parseFields (fuel : Nat) : List Char → Option (List (String × JVal) × List Char) :=
  (parsers fuel).2.2

/-- The JSON value of a whole document: one value, with nothing but
whitespace around it. -/
def parseTop (s : String) : Option JVal :=
  match parseVal (s.length + 2) s.toList with
  | some (v, rem) => if skipWS rem == [] then some v else none
  | none => none

/-! ## APIError, APIResponse and DecodeError (client.go lines 213-224, 258-272) -/

/-- APIError of client.go lines 220-224: the remote error payload. -/
structure APIError where
  ErrorCode : String
  HTTPCode : String
  Message : String
deriving DecidableEq

/-- The zero value of APIError. -/
def APIError.zero : APIError := ⟨"", "", ""⟩

/-- An ASCII letter folded to lowercase. -/
def lowerChar (c : Char) : Char :=
  if 65 ≤ c.toNat ∧ c.toNat ≤ 90 then Char.ofNat (c.toNat + 32) else c

/-- Go field matching for a JSON key against a struct tag: an exact match or
a case-insensitive one. -/
def keyMatches (tag key : String) : Bool :=
  tag == key || tag.toList.map lowerChar == key.toList.map lowerChar

/-- One JSON object field stored into the APIError under Go field matching:
unknown keys are ignored, a matched key demands a string value. -/
def setField (e : APIError) (key : String) (v : JVal) : Option APIError :=
  if keyMatches "errorCode" key then
    match v with
    | .jstr s => some { e with ErrorCode := s }
    | _ => none
  else if keyMatches "httpCode" key then
    match v with
    | .jstr s => some { e with HTTPCode := s }
    | _ => none
  else if keyMatches "message" key then
    match v with
    | .jstr s => some { e with Message := s }
    | _ => none
  else some e

/-- Modelled from the external encoding/json contract: unmarshalling a body
into the APIError struct.  A top-level null succeeds and leaves the zero
value; an object fills the matching fields, later duplicates winning; any
other document, or a matched field of non-string type, fails. -/
def unmarshalAPIError (body : String) : Option APIError :=
  match parseTop body with
  | some .jnull => some APIError.zero
  | some (.jobj fields) =>
    fields.foldl (fun acc kv =>
      match acc with
      | none => none
      | some e => setField e kv.1 kv.2) (some APIError.zero)
  | _ => none

/-- The numeric value of a digit run. -/
def digitsToNat (cs : List Char) : Nat := cs.foldl (fun a c => a * 10 + (c.toNat - 48)) 0

/-- An integer from a JSON number lexeme: an optional minus sign and digits
only, the way Go parses a number into an int field. -/
def parseIntLexeme (cs : List Char) : Option Int :=
  match cs with
  | [] => none
  | c :: rest =>
    if c == '-' then
      if rest ≠ [] ∧ rest.all isDigit then some (-(digitsToNat rest : Int)) else none
    else if cs.all isDigit then some (digitsToNat cs : Int)
    else none

/-- Modelled from the external encoding/json contract: unmarshalling a body
into a Go int that starts at zero.  A bare integer gives its value; null is
a no-op that keeps zero; everything else — fractions, exponents, other
document shapes, malformed input — fails. -/
def unmarshalInt (body : String) : Option Int :=
  match parseTop body with
  | some .jnull => some 0
  | some (.jnum lex) => parseIntLexeme lex.toList
  | _ => none

/-- APIResponse of client.go lines 213-217: the normalized response envelope.
`Body = none` models a nil byte slice. -/
structure APIResponse where
  StatusCode : Int
  Status : String
  Body : Option String
deriving DecidableEq

/-- A Go error value: `none` is the nil error, `some msg` an error whose
message is `msg`. -/
abbrev GoErr := Option String

/-- DecodeError of client.go lines 258-272: an expected status code is
success; otherwise a decodable body surfaces the decoded message, and a nil
or undecodable body surfaces the generic code-dash-status text.  On decode
failure the payload component models the zero value of the named return. -/
def DecodeError (r : APIResponse) (expectedHTTPCode : List Int) : APIError × GoErr :=
  if expectedHTTPCode.contains r.StatusCode then (APIError.zero, none)
  else
    match r.Body with
    | some b =>
      match unmarshalAPIError b with
      | some e => (e, some e.Message)
      | none => (APIError.zero, some (toString r.StatusCode ++ " - " ++ r.Status))
    | none => (APIError.zero, some (toString r.StatusCode ++ " - " ++ r.Status))

/-- Claim C6: a status code that is a member of the expected list is success:
the zero payload and a nil error, whatever the body holds. -/
theorem decode_expected_success (r : APIResponse) (codes : List Int)
    (h : r.StatusCode ∈ codes) : DecodeError r codes = (APIError.zero, none) := by
  have hcc : codes.contains r.StatusCode = true := List.elem_eq_true_of_mem h
  unfold DecodeError
  rw [if_pos hcc]

/-- Witness for claim C6: a 200 response against expected list [200]. -/
theorem decode_expected_success_witness :
    (200 : Int) ∈ [(200 : Int)] ∧
    DecodeError ⟨200, "200 OK", some "ignored"⟩ [200] = (APIError.zero, none) :=
  ⟨by decide, decode_expected_success ⟨200, "200 OK", some "ignored"⟩ [200] (by decide)⟩

/-- Claim C4: on an unexpected status code, a body that decodes as the error
payload surfaces exactly the decoded message field, and a body that does not
decode — nil, malformed, or of the wrong shape — surfaces the generic text
of the status code and status joined by a dash. -/
theorem decode_error_message (r : APIResponse) (codes : List Int)
    (h : r.StatusCode ∉ codes) :
    (∀ e, r.Body.bind unmarshalAPIError = some e →
      DecodeError r codes = (e, some e.Message)) ∧
    (r.Body.bind unmarshalAPIError = none →
      DecodeError r codes =
        (APIError.zero, some (toString r.StatusCode ++ " - " ++ r.Status))) := by
  have hc : codes.contains r.StatusCode = false := by
    cases hcc : codes.contains r.StatusCode
    · rfl
    · exact absurd (List.mem_of_elem_eq_true hcc) h
  constructor
  · intro e he
    match hb : r.Body with
    | none => simp [hb] at he
    | some b =>
      simp only [hb, Option.some_bind] at he
      unfold DecodeError
      rw [if_neg (by rw [hc]; simp), hb]
      simp [he]
  · intro hn
    match hb : r.Body with
    | none =>
      unfold DecodeError
      rw [if_neg (by rw [hc]; simp), hb]
    | some b =>
      simp only [hb, Option.some_bind] at hn
      unfold DecodeError
      rw [if_neg (by rw [hc]; simp), hb]
      simp [hn]

/-- The error payload body used as the decodable witness input. -/
def body404 : String :=
  "\x7b\"errorCode\":\"X\",\"httpCode\":\"404\",\"message\":\"not found\"\x7d"

/-- Witness for claim C4: a 404 with a decodable payload surfaces its message
field, and a 500 with an unparsable body surfaces the generic text. -/
theorem decode_error_message_witness :
    ((404 : Int) ∉ [(200 : Int)] ∧
      (some body404).bind unmarshalAPIError = some ⟨"X", "404", "not found"⟩ ∧
      DecodeError ⟨404, "404 Not Found", some body404⟩ [200] =
        (⟨"X", "404", "not found"⟩, some "not found")) ∧
    ((500 : Int) ∉ [(200 : Int)] ∧
      (some "oops").bind unmarshalAPIError = none ∧
      DecodeError ⟨500, "Internal Server Error", some "oops"⟩ [200] =
        (APIError.zero, some "500 - Internal Server Error")) :=
  ⟨⟨by decide, by decide,
    (decode_error_message ⟨404, "404 Not Found", some body404⟩ [200] (by decide)).1
      ⟨"X", "404", "not found"⟩ (by decide)⟩,
   ⟨by decide, by decide,
    (decode_error_message ⟨500, "Internal Server Error", some "oops"⟩ [200] (by decide)).2
      (by decide)⟩⟩

/-- Claim C10: with an empty expected-code list DecodeError always returns a
non-nil error, for every envelope. -/
theorem decode_error_empty_expected (r : APIResponse) :
    (DecodeError r []).2.isSome = true := by
  unfold DecodeError
  match hb : r.Body with
  | none => simp
  | some b =>
    match hu : unmarshalAPIError b with
    | none => simp [hu]
    | some e => simp [hu]

/-! ## Client, endpoint resolution, request building and dispatch
(client.go lines 188-251 and 320-373) -/

/-- TIMEOUT of client.go line 188: the request timeout constant, in seconds. -/
def TIMEOUT : Int := 180

/-- ENDPOINTS of client.go lines 191-199: the registry of endpoint names. -/
def ENDPOINTS : List (String × String) :=
  [("ovh-eu", "https://eu.api.ovh.com/1.0"),
   ("ovh-ca", "https://ca.api.ovh.com/1.0"),
   ("kimsufi-eu", "https://eu.api.kimsufi.com/1.0"),
   ("kimsufi-ca", "https://ca.api.kimsufi.com/1.0"),
   ("soyoustart-eu", "https://eu.api.soyoustart.com/1.0"),
   ("soyoustart-ca", "https://ca.api.soyoustart.com/1.0"),
   ("runabove-ca", "https://api.runabove.com/1.0")]

/-- A Go map read with the zero-value default for a missing key. -/
def endpointLookup (name : String) : String :=
  match ENDPOINTS.find? (fun p => p.1 == name) with
  | some p => p.2
  | none => ""

/-- strings.Contains(s, slash): the string holds a slash character. -/
def containsSlash (s : String) : Bool := s.toList.contains '/'

/-- client.go lines 229-231: a name holding a slash is kept as the base URL;
any other name is read from the registry, the empty string when missing. -/
def resolveEndpoint (endpoint : String) : String :=
  if containsSlash endpoint then endpoint else endpointLookup endpoint

/-- Client of client.go lines 202-210.  The http.Client handle is modelled
separately as the Transport argument of the dispatch functions. -/
structure Client where
  endpoint : String
  applicationKey : String
  applicationSecret : String
  consumerKey : String
  Timeout : Int
  timeDelta : Int
deriving DecidableEq

/-- An outgoing HTTP request as handed to the transport: method, target URL,
body, headers, and the timeout set on the http.Client for this call. -/
structure HTTPRequest where
  method : String
  url : String
  body : Option String
  headers : List (String × String)
  timeoutNs : Int
deriving DecidableEq

/-- A raw response from the transport. -/
structure RawResponse where
  statusCode : Int
  status : String
  body : String
deriving DecidableEq

/-- The HTTP transport: what the net/http client does with one request,
either a transport error or a raw response. -/
abbrev Transport := HTTPRequest → Except String RawResponse

/-- The bytes of a string, as fed to the signature computation. -/
def strBytes (s : String) : Bytes := s.toList.map Char.toNat

/-- A string rendered from byte values, for the signature header. -/
def bytesStr (bs : Bytes) : String := String.mk (bs.map Char.ofNat)

/-- The request assembled by `Client.Do` (client.go lines 321-361) just
before the transport call: the target URL concatenates endpoint and path;
the timestamp is the local second count minus the stored delta; a present
body adds the JSON content type; the application header is always set; the
four authentication headers are added only when `needAuth` is set; the
transport timeout is set from the TIMEOUT constant, in nanoseconds.  `data`
models the payload already serialized to JSON (`none` when absent) and
`now` the local wall-clock second at which `Do` runs. -/
def buildRequest (c : Client) (method path : String) (data : Option String)
    (needAuth : Bool) (now : Int) : HTTPRequest :=
  let target := c.endpoint ++ path
  let timestamp := toString (now - c.timeDelta)
  let baseHeaders :=
    (match data with
     | some _ => [("Content-Type", "application/json;charset=utf-8")]
     | none => []) ++ [("X-Ovh-Application", c.applicationKey)]
  let headers :=
    if needAuth then
      baseHeaders ++
        [("X-Ovh-Timestamp", timestamp),
         ("X-Ovh-Consumer", c.consumerKey),
         ("Accept", "application/json"),
         ("X-Ovh-Signature", bytesStr (xOvhSignature (strBytes c.applicationSecret)
           (strBytes c.consumerKey) (strBytes method) (strBytes target)
           (strBytes (data.getD "")) (strBytes timestamp)))]
    else baseHeaders
  ⟨method, target, data, headers, TIMEOUT * 1000000000⟩

/-- The value of the first header with the given name, as Header.Get reads
it back. -/
def headerValue (req : HTTPRequest) (name : String) : Option String :=
  match req.headers.find? (fun p => p.1 == name) with
  | some p => some p.2
  | none => none

/-- Client.Do of client.go lines 320-373: build the request, run it through
the transport, and normalize the outcome into an APIResponse whose body is
the fully read response body. -/
def Client.Do (c : Client) (transport : Transport) (method path : String)
    (data : Option String) (needAuth : Bool) (now : Int) : Except String APIResponse :=
  match transport (buildRequest c method path data needAuth now) with
  | .error e => .error e
  | .ok r => .ok ⟨r.statusCode, r.status, some r.body⟩

/-- DoGetUnAuth of client.go lines 281-283. -/
def Client.DoGetUnAuth (c : Client) (transport : Transport) (path : String)
    (now : Int) : Except String APIResponse :=
  c.Do transport "GET" path none false now

/-- DoGet of client.go lines 276-278. -/
def Client.DoGet (c : Client) (transport : Transport) (path : String)
    (now : Int) : Except String APIResponse :=
  c.Do transport "GET" path none true now

/-- The client literal of client.go line 234: resolved endpoint, credentials,
the TIMEOUT default, and a zero time delta before calibration. -/
def draftClient (endpoint applicationKey applicationSecret consumerKey : String) : Client :=
  ⟨resolveEndpoint endpoint, applicationKey, applicationSecret, consumerKey, TIMEOUT, 0⟩

/-- NewClient of client.go lines 227-251: resolve the endpoint, issue the
unauthenticated call to the time endpoint, decode the body as an integer,
and store `timeDelta = localTime - serverTime`; a transport failure or an
undecodable body aborts construction with an error and no client.
`localTime` is the local wall-clock second read during construction. -/
def NewClient (transport : Transport)
    (endpoint applicationKey applicationSecret consumerKey : String)
    (localTime : Int) : Except String Client :=
  let client := draftClient endpoint applicationKey applicationSecret consumerKey
  match client.DoGetUnAuth transport "/auth/time" localTime with
  | .error e => .error e
  | .ok timeDelta =>
    match unmarshalInt (timeDelta.Body.getD "") with
    | none => .error "json: cannot unmarshal body into Go value of type int"
    | some serverTime => .ok { client with timeDelta := localTime - serverTime }

/-- Claim C3: an unauthenticated request never carries the timestamp,
consumer or signature headers; an authenticated one carries the timestamp,
consumer, accept and signature headers; and the application header is set in
both cases — for every client, method, path, body and call time. -/
theorem auth_header_presence (c : Client) (method path : String)
    (data : Option String) (now : Int) :
    (headerValue (buildRequest c method path data false now) "X-Ovh-Timestamp" = none ∧
     headerValue (buildRequest c method path data false now) "X-Ovh-Consumer" = none ∧
     headerValue (buildRequest c method path data false now) "X-Ovh-Signature" = none) ∧
    ((headerValue (buildRequest c method path data true now) "X-Ovh-Timestamp").isSome = true ∧
     (headerValue (buildRequest c method path data true now) "X-Ovh-Consumer").isSome = true ∧
     (headerValue (buildRequest c method path data true now) "Accept").isSome = true ∧
     (headerValue (buildRequest c method path data true now) "X-Ovh-Signature").isSome = true) ∧
    (∀ needAuth : Bool,
      (headerValue (buildRequest c method path data needAuth now)
        "X-Ovh-Application").isSome = true) := by
  cases data <;>
    exact ⟨⟨rfl, rfl, rfl⟩, ⟨rfl, rfl, rfl, rfl⟩, fun na => by cases na <;> rfl⟩

/-- Claim C2: construction stores `timeDelta = localTime - serverTime`, and
every subsequent authenticated call carries an X-Ovh-Timestamp equal to the
call-time clock reading minus that stored offset. -/
theorem clock_offset_application (transport : Transport)
    (endpoint appKey appSecret conKey : String) (localTime serverTime : Int)
    (resp : APIResponse)
    (h1 : (draftClient endpoint appKey appSecret conKey).DoGetUnAuth transport
      "/auth/time" localTime = .ok resp)
    (h2 : unmarshalInt (resp.Body.getD "") = some serverTime) :
    NewClient transport endpoint appKey appSecret conKey localTime =
      .ok { draftClient endpoint appKey appSecret conKey with
              timeDelta := localTime - serverTime } ∧
    ∀ (method path : String) (data : Option String) (now : Int),
      headerValue (buildRequest
        { draftClient endpoint appKey appSecret conKey with
            timeDelta := localTime - serverTime }
        method path data true now) "X-Ovh-Timestamp" =
        some (toString (now - (localTime - serverTime))) := by
  constructor
  · simp [NewClient, h1, h2]
  · intro method path data now
    cases data <;> rfl

/-- The transport used by the calibration witnesses: it answers every
request with a 200 whose body is the bare integer 1000. -/
def timeTransport : Transport := fun _ => .ok ⟨200, "200 OK", "1000"⟩

/-- Witness for claim C2: the server reports second 1000 while the local
clock reads 1005, so the stored delta is 5 and a later authenticated call at
`now` carries the timestamp `now - 5`. -/
theorem clock_offset_application_witness :
    ((draftClient "ovh-eu" "ak" "sec" "ck").DoGetUnAuth timeTransport "/auth/time" 1005 =
      .ok ⟨200, "200 OK", some "1000"⟩) ∧
    unmarshalInt ((some "1000" : Option String).getD "") = some 1000 ∧
    (NewClient timeTransport "ovh-eu" "ak" "sec" "ck" 1005 =
      .ok { draftClient "ovh-eu" "ak" "sec" "ck" with timeDelta := 1005 - 1000 } ∧
    ∀ (method path : String) (data : Option String) (now : Int),
      headerValue (buildRequest
        { draftClient "ovh-eu" "ak" "sec" "ck" with timeDelta := 1005 - 1000 }
        method path data true now) "X-Ovh-Timestamp" =
        some (toString (now - (1005 - 1000)))) :=
  ⟨rfl, rfl,
   clock_offset_application timeTransport "ovh-eu" "ak" "sec" "ck" 1005 1000
     ⟨200, "200 OK", some "1000"⟩ rfl rfl⟩

/-- Claim C5: if the time call fails the construction fails with the
underlying error; if its body does not decode as an integer the construction
fails; and a client is returned only when the calibration call and decode
both succeeded, the stored delta being local minus server time. -/
theorem construction_failure_propagation (transport : Transport)
    (endpoint appKey appSecret conKey : String) (localTime : Int) :
    (∀ e, (draftClient endpoint appKey appSecret conKey).DoGetUnAuth transport
        "/auth/time" localTime = .error e →
      NewClient transport endpoint appKey appSecret conKey localTime = .error e) ∧
    (∀ resp, (draftClient endpoint appKey appSecret conKey).DoGetUnAuth transport
        "/auth/time" localTime = .ok resp →
      unmarshalInt (resp.Body.getD "") = none →
      NewClient transport endpoint appKey appSecret conKey localTime =
        .error "json: cannot unmarshal body into Go value of type int") ∧
    (∀ c, NewClient transport endpoint appKey appSecret conKey localTime = .ok c →
      ∃ resp serverTime,
        (draftClient endpoint appKey appSecret conKey).DoGetUnAuth transport
          "/auth/time" localTime = .ok resp ∧
        unmarshalInt (resp.Body.getD "") = some serverTime ∧
        c.timeDelta = localTime - serverTime) := by
  refine ⟨?_, ?_, ?_⟩
  · intro e he
    simp [NewClient, he]
  · intro resp hr hu
    simp [NewClient, hr, hu]
  · intro c hc
    simp only [NewClient] at hc
    cases hdo : (draftClient endpoint appKey appSecret conKey).DoGetUnAuth transport
        "/auth/time" localTime with
    | error e =>
      rw [hdo] at hc
      simp at hc
    | ok resp =>
      simp only [hdo] at hc
      cases hu : unmarshalInt (resp.Body.getD "") with
      | none =>
        simp only [hu] at hc
        simp at hc
      | some serverTime =>
        simp only [hu, Except.ok.injEq] at hc
        exact ⟨resp, serverTime, rfl, hu, by rw [← hc]⟩

/-- The transport used by the construction-failure witness: every request
fails with a connection error. -/
def failTransport : Transport := fun _ => .error "connection refused"

/-- Witness for claim C5: a failing transport makes construction return the
underlying error and no client. -/
theorem construction_failure_propagation_witness :
    ((draftClient "ovh-eu" "ak" "sec" "ck").DoGetUnAuth failTransport "/auth/time" 0 =
      .error "connection refused") ∧
    NewClient failTransport "ovh-eu" "ak" "sec" "ck" 0 = .error "connection refused" :=
  ⟨rfl,
   (construction_failure_propagation failTransport "ovh-eu" "ak" "sec" "ck" 0).1
     "connection refused" rfl⟩

/-- Claim C7 is contradicted by the code: Do sets the transport timeout from
the package constant TIMEOUT (client.go line 361), never from the client's
Timeout attribute, so a client whose Timeout attribute holds 30 seconds
still runs its calls under a 180 second transport timeout. -/
theorem do_ignores_timeout_attribute :
    (∀ (c : Client) (method path : String) (data : Option String)
      (needAuth : Bool) (now : Int),
      (buildRequest c method path data needAuth now).timeoutNs = TIMEOUT * 1000000000) ∧
    (buildRequest ⟨"https://eu.api.ovh.com/1.0", "ak", "sec", "ck", 30, 0⟩
      "GET" "/me" none true 0).timeoutNs ≠ 30 * 1000000000 := by
  constructor
  · intro c method path data needAuth now
    rfl
  · decide

/-- Claim C8: the name ovh-eu resolves to its fixed base URL; a name holding
a slash is used unchanged; any other unrecognized name resolves to the empty
string — resolution is total and rejects nothing. -/
theorem endpoint_resolution :
    resolveEndpoint "ovh-eu" = "https://eu.api.ovh.com/1.0" ∧
    (∀ s, containsSlash s = true → resolveEndpoint s = s) ∧
    (∀ s, containsSlash s = false → ENDPOINTS.find? (fun p => p.1 == s) = none →
      resolveEndpoint s = "") := by
  refine ⟨rfl, ?_, ?_⟩
  · intro s h
    simp [resolveEndpoint, h]
  · intro s h hf
    simp [resolveEndpoint, h, endpointLookup, hf]

/-- Witness for claim C8: a slash-bearing name is kept unchanged, and an
unknown bare name resolves to the empty string. -/
theorem endpoint_resolution_witness :
    (containsSlash "https://example.org/base" = true ∧
      resolveEndpoint "https://example.org/base" = "https://example.org/base") ∧
    (containsSlash "mystery" = false ∧
      ENDPOINTS.find? (fun p => p.1 == "mystery") = none ∧
      resolveEndpoint "mystery" = "") :=
  ⟨⟨rfl, endpoint_resolution.2.1 "https://example.org/base" rfl⟩,
   ⟨rfl, rfl, endpoint_resolution.2.2 "mystery" rfl rfl⟩⟩

end GoOVH
